import Mathlib

/-!
Shallow embedding of the dev-server orchestration subsystem of the `rush`
repository (`apps/api/app/services/dev_server.py` and `apps/api/app/main.py`).

Python dictionaries are modelled as association lists with the helpers
`lookupKey`, `insertKey`, `eraseKey`; external effects (the socket
availability probe, the subprocess spawn, the terminate/kill interaction and
per-subscriber send failures) are modelled as explicit parameters, since the
rest of the code is deterministic given their outcomes.  All work for one
owner is serialized in the source (single-threaded cooperative scheduling),
so the operations are modelled as sequential state transformers.
-/

namespace Rush

/-- Association-list lookup, modelling Python `d[k]` / `k in d`. -/
def lookupKey {κ α : Type} [DecidableEq κ] (k : κ) : List (κ × α) → Option α
  | [] => none
  | (k1, v) :: rest => if k1 = k then some v else lookupKey k rest

/-- Remove every binding of `k`, modelling Python `del d[k]`. -/
def eraseKey {κ α : Type} [DecidableEq κ] (k : κ) : List (κ × α) → List (κ × α)
  | [] => []
  | (k1, v) :: rest => if k1 = k then eraseKey k rest else (k1, v) :: eraseKey k rest

/-- Update the binding of `k`, modelling Python `d[k] = v`. -/
def insertKey {κ α : Type} [DecidableEq κ] (k : κ) (v : α) (l : List (κ × α)) :
    List (κ × α) :=
  (k, v) :: eraseKey k l

/-- `ServerStatus` from `dev_server.py` (a five-valued string enum there). -/
inductive ServerStatus : Type
  | stopped
  | starting
  | running
  | stopping
  | error
deriving DecidableEq, Repr

/-- `DevServerInfo` from `dev_server.py`.  The `process` handle is modelled by
its presence (`hasProcess`) together with the recorded `pid`; `started_at`
is modelled as an abstract timestamp. -/
structure DevServerInfo : Type where
  project_id : String
  port : Nat
  status : ServerStatus
  hasProcess : Bool
  pid : Option Nat
  started_at : Nat
  error_message : Option String
deriving DecidableEq, Repr

/-- `DevServerManager` state: `servers` maps project id to record,
`port_allocations` maps port to owning project id. -/
structure DevServerManager : Type where
  base_port : Nat
  servers : List (String × DevServerInfo)
  port_allocations : List (Nat × String)
deriving DecidableEq, Repr

/-- `max_attempts = 100` in `_find_available_port`. -/
def max_attempts : Nat := 100

/-- The scanning loop of `_find_available_port`: starting at `port`, try
`fuel` candidates, skipping ports present in `alloc` and ports whose live
availability probe (`avail`, modelling `_is_port_available`) fails. -/
def find_port_go (alloc : List (Nat × String)) (avail : Nat → Bool) :
    Nat → Nat → Option Nat
  | _, 0 => none
  | port, n + 1 =>
    if lookupKey port alloc = none ∧ avail port = true then some port
    else find_port_go alloc avail (port + 1) n

/-- `DevServerManager._find_available_port`. -/
def find_available_port (m : DevServerManager) (avail : Nat → Bool) : Option Nat :=
  find_port_go m.port_allocations avail m.base_port max_attempts

/-- `DevServerManager.release_port`. -/
def release_port (m : DevServerManager) (port : Nat) : DevServerManager :=
  { m with port_allocations := eraseKey port m.port_allocations }

/-- `DevServerManager.allocate_port`.  Returns the allocated port (or `none`)
together with the updated manager state.  The Python guard `if port:` treats
port `0` as falsy, which is modelled faithfully. -/
def allocate_port (m : DevServerManager) (avail : Nat → Bool) (project_id : String) :
    Option Nat × DevServerManager :=
  match lookupKey project_id m.servers with
  | some info =>
    match lookupKey info.port m.port_allocations with
    | none =>
      (some info.port,
        { m with port_allocations := insertKey info.port project_id m.port_allocations })
    | some _ => (some info.port, m)
  | none =>
    match find_available_port m avail with
    | none => (none, m)
    | some port =>
      if port ≠ 0 then
        (some port,
          { m with port_allocations := insertKey port project_id m.port_allocations })
      else (some port, m)

/-- Outcome of the terminate/kill interaction inside `stop_server`s `try`
block (the only statements there that can raise):
`exited` — `terminate()` then `wait()` completed within the 5 s timeout;
`killedAfterTimeout` — `wait_for` timed out, `kill()` and the second `wait()`
completed; `processGone` — a `ProcessLookupError` was raised (caught by the
inner handler); `raisedOther msg` — any other exception escaped to the outer
`except` handler. -/
inductive TermOutcome : Type
  | exited
  | killedAfterTimeout
  | processGone
  | raisedOther (msg : String)
deriving DecidableEq, Repr

/-- Outcome of `asyncio.create_subprocess_exec` inside `start_server`. -/
inductive SpawnOutcome : Type
  | ok (pid : Nat)
  | fail (msg : String)
deriving DecidableEq, Repr

/-- The `stop_server` wait loop runs `range(10)` iterations ... -/
def stopping_poll_count : Nat := 10

/-- ... sleeping `0.5` seconds (500 ms) each. -/
def stopping_poll_ms : Nat := 500

/-- One poll of the wait loop inside `stop_server` for an owner already in
`STOPPING` state: true when the record is gone or has reached `STOPPED`. -/
def stop_wait_poll (m : DevServerManager) (project_id : String) : Bool :=
  match lookupKey project_id m.servers with
  | none => true
  | some info => info.status = ServerStatus.stopped

/-- The full wait loop (`for _ in range(10)`).  No other task runs during the
sleeps in the sequential model, so every poll observes the same state. -/
def stop_wait_loop (m : DevServerManager) (project_id : String) : Nat → Bool
  | 0 => false
  | n + 1 =>
    if stop_wait_poll m project_id then true
    else stop_wait_loop m project_id n

/-- `DevServerManager.stop_server`.  Returns the `bool` result together with
the updated manager state; `term` gives the outcome of the terminate/kill
system calls (consulted only when a process handle is present). -/
def stop_server (m : DevServerManager) (project_id : String) (term : TermOutcome) :
    Bool × DevServerManager :=
  match lookupKey project_id m.servers with
  | none => (true, m)
  | some info =>
    if info.status = ServerStatus.stopped then (true, m)
    else if info.status = ServerStatus.stopping then
      if stop_wait_loop m project_id stopping_poll_count then (true, m)
      else
        match lookupKey project_id m.servers with
        | some info2 =>
          (true,
            { m with
              servers := eraseKey project_id m.servers,
              port_allocations := eraseKey info2.port m.port_allocations })
        | none => (true, m)
    else
      -- mark as stopping (`server_info.status = STOPPING` mutates the record
      -- held in the dictionary), remember `port_to_release = server_info.port`
      if info.hasProcess then
        match term with
        | TermOutcome.raisedOther msg =>
          -- outer `except` handler: keep the record, downgrade it to ERROR
          (false,
            { m with
              servers :=
                insertKey project_id
                  ({ info with
                      status := ServerStatus.error, error_message := some msg })
                  (insertKey project_id
                    ({ info with status := ServerStatus.stopping })
                    m.servers) })
        | _ =>
          -- release the port, then remove the record
          (true,
            { m with
              servers :=
                eraseKey project_id
                  (insertKey project_id
                    ({ info with status := ServerStatus.stopping })
                    m.servers),
              port_allocations := eraseKey info.port m.port_allocations })
      else
        (true,
          { m with
            servers :=
              eraseKey project_id
                (insertKey project_id
                  ({ info with status := ServerStatus.stopping })
                  m.servers),
            port_allocations := eraseKey info.port m.port_allocations })

/-- Result of `start_server`: the returned record or the raised
`RuntimeError` message, the updated manager state, and — when
`create_subprocess_exec` was reached — the record as it stood at the moment
of the spawn (`spawn_record = none` means no spawn was attempted). -/
structure StartResult : Type where
  result : Except String DevServerInfo
  state : DevServerManager
  spawn_record : Option DevServerInfo

/-- The record created by `start_server` just before the spawn
(`DevServerInfo(project_id, port, STARTING)`). -/
def starting_record (project_id : String) (port : Nat) (now : Nat) : DevServerInfo :=
  { project_id := project_id, port := port, status := ServerStatus.starting,
    hasProcess := false, pid := none, started_at := now, error_message := none }

/-- The tail of `start_server` after a port has been resolved: create the
record in `STARTING`, spawn, and either promote it to `RUNNING` or mark it
`ERROR` and release the port. -/
def start_spawn (m : DevServerManager) (spawn : SpawnOutcome) (now : Nat)
    (project_id : String) (port : Nat) : StartResult :=
  match spawn with
  | SpawnOutcome.ok newPid =>
    { result := Except.ok
        { starting_record project_id port now with
            hasProcess := true, pid := some newPid, status := ServerStatus.running },
      state :=
        { m with
          servers :=
            insertKey project_id
              ({ starting_record project_id port now with
                  hasProcess := true, pid := some newPid,
                  status := ServerStatus.running })
              (insertKey project_id (starting_record project_id port now) m.servers) },
      spawn_record := some (starting_record project_id port now) }
  | SpawnOutcome.fail msg =>
    { result := Except.error msg,
      state :=
        release_port
          { m with
            servers :=
              insertKey project_id
                ({ starting_record project_id port now with
                    status := ServerStatus.error, error_message := some msg })
                (insertKey project_id (starting_record project_id port now) m.servers) }
          port,
      spawn_record := some (starting_record project_id port now) }

/-- The body of `start_server` from the port-resolution step on (the code
that runs when no record short-circuits the call). -/
def start_fresh (m : DevServerManager) (avail : Nat → Bool) (spawn : SpawnOutcome)
    (now : Nat) (project_id : String) (portArg : Option Nat) : StartResult :=
  match portArg with
  | none =>
    match allocate_port m avail project_id with
    | (none, m1) =>
      { result := Except.error "No available ports for dev server",
        state := m1, spawn_record := none }
    | (some p, m1) =>
      if p = 0 then
        { result := Except.error "No available ports for dev server",
          state := m1, spawn_record := none }
      else start_spawn m1 spawn now project_id p
  | some p =>
    match lookupKey p m.port_allocations with
    | none =>
      start_spawn
        { m with port_allocations := insertKey p project_id m.port_allocations }
        spawn now project_id p
    | some owner =>
      if owner = project_id then start_spawn m spawn now project_id p
      else
        { result := Except.error s!"Port {p} is already allocated to another project",
          state := m, spawn_record := none }

/-- `DevServerManager.start_server`. -/
def start_server (m : DevServerManager) (avail : Nat → Bool) (term : TermOutcome)
    (spawn : SpawnOutcome) (now : Nat) (project_id : String)
    (portArg : Option Nat) : StartResult :=
  match lookupKey project_id m.servers with
  | some info =>
    if info.status = ServerStatus.running then
      { result := Except.ok info, state := m, spawn_record := none }
    else if info.status = ServerStatus.starting then
      { result := Except.ok info, state := m, spawn_record := none }
    else start_fresh (stop_server m project_id term).2 avail spawn now project_id portArg
  | none => start_fresh m avail spawn now project_id portArg

/-- The three JSON message kinds of `main.py` (output lines are kept as
character lists to stay close to the byte-level pump). -/
inductive Message : Type
  | output (line : List Char) (is_stderr : Bool)
  | status (status : ServerStatus) (port : Option Nat) (pid : Option Nat)
  | error (message : String)
deriving DecidableEq, Repr

/-- Python `message.get("type") == "output"`. -/
def Message.isOutput : Message → Bool
  | Message.output _ _ => true
  | _ => false

/-- `MAX_BUFFER_SIZE = 200` in `main.py`. -/
def MAX_BUFFER_SIZE : Nat := 200

/-- Module-level state of `main.py`: `active_websockets` (subscriber sets,
websockets modelled by numeric ids) and `log_buffers`. -/
structure WsState : Type where
  active_websockets : List (String × List Nat)
  log_buffers : List (String × List Message)

/-- The buffering step of `broadcast_to_project`: append, then keep only the
last `MAX_BUFFER_SIZE` entries (`buf[-MAX_BUFFER_SIZE:]`). -/
def buffer_append (buf : List Message) (msg : Message) : List Message :=
  if MAX_BUFFER_SIZE < (buf ++ [msg]).length then
    (buf ++ [msg]).drop ((buf ++ [msg]).length - MAX_BUFFER_SIZE)
  else buf ++ [msg]

/-- The delivery `for` loop of `broadcast_to_project`: returns the list of
subscribers that received the message and the `disconnected` set, where
`sendFails ws` tells whether `ws.send_json` raised for that subscriber. -/
def broadcast_loop (sendFails : Nat → Bool) : List Nat → List Nat × List Nat
  | [] => ([], [])
  | ws :: rest =>
    let r := broadcast_loop sendFails rest
    if sendFails ws then (r.1, ws :: r.2) else (ws :: r.1, r.2)

/-- The buffering prefix of `broadcast_to_project`: only messages of type
`output` are pushed into the buffer of the owner. -/
def broadcast_buffers (st : WsState) (project_id : String) (msg : Message) :
    List (String × List Message) :=
  if msg.isOutput then
    insertKey project_id
      (buffer_append ((lookupKey project_id st.log_buffers).getD []) msg)
      st.log_buffers
  else st.log_buffers

/-- `broadcast_to_project` from `main.py`: buffer output messages, then
best-effort delivery with removal of failed subscribers.  Returns the list
of subscribers that received the message together with the new state. -/
def broadcast_to_project (st : WsState) (project_id : String) (msg : Message)
    (sendFails : Nat → Bool) : List Nat × WsState :=
  match lookupKey project_id st.active_websockets with
  | none => ([], { st with log_buffers := broadcast_buffers st project_id msg })
  | some subs =>
    if subs = [] then ([], { st with log_buffers := broadcast_buffers st project_id msg })
    else
      if (broadcast_loop sendFails subs).2 = [] then
        ((broadcast_loop sendFails subs).1,
          { active_websockets := st.active_websockets,
            log_buffers := broadcast_buffers st project_id msg })
      else
        if subs.filter (fun w => decide (¬ w ∈ (broadcast_loop sendFails subs).2)) = [] then
          ((broadcast_loop sendFails subs).1,
            { active_websockets := eraseKey project_id st.active_websockets,
              log_buffers := broadcast_buffers st project_id msg })
        else
          ((broadcast_loop sendFails subs).1,
            { active_websockets :=
                insertKey project_id
                  (subs.filter (fun w => decide (¬ w ∈ (broadcast_loop sendFails subs).2)))
                  st.active_websockets,
              log_buffers := broadcast_buffers st project_id msg })

/-- The initial section of the `dev_server_websocket` handler, after the
subscriber has been added to the set: the list of messages sent to the new
subscriber before the keep-alive loop starts.  `server_info` is the current
record, `buf` the entry of `log_buffers` for the owner, and `sendOk` tells
which buffered sends succeed (a failing buffered send is skipped by the
inner `try`/`except`; the initial status send is assumed to succeed, since
its failure aborts the whole handler). -/
def subscribe_messages (server_info : Option DevServerInfo)
    (buf : Option (List Message)) (sendOk : Message → Bool) : List Message :=
  match server_info with
  | some info =>
    Message.status info.status (some info.port) info.pid ::
      (if info.status = ServerStatus.running then
        match buf with
        | some msgs => msgs.filter sendOk
        | none => []
      else [])
  | none => [Message.status ServerStatus.stopped none none]

/-- U+FFFD, the replacement character used by `errors="replace"`. -/
def replChar : Char := Char.ofNat 0xFFFD

/-- UTF-8 continuation byte. -/
def isContByte (b : Nat) : Bool := decide (0x80 ≤ b ∧ b ≤ 0xBF)

/-- Lower bound of the second byte after a three-byte lead (excludes
overlong encodings after `0xE0`). -/
def cont3lo (b : Nat) : Nat := if b = 0xE0 then 0xA0 else 0x80

/-- Upper bound of the second byte after a three-byte lead (excludes
surrogates after `0xED`). -/
def cont3hi (b : Nat) : Nat := if b = 0xED then 0x9F else 0xBF

/-- Lower bound of the second byte after a four-byte lead. -/
def cont4lo (b : Nat) : Nat := if b = 0xF0 then 0x90 else 0x80

/-- Upper bound of the second byte after a four-byte lead (excludes values
above U+10FFFF after `0xF4`). -/
def cont4hi (b : Nat) : Nat := if b = 0xF4 then 0x8F else 0xBF

/-- `bytes.decode("utf-8", errors="replace")`: total decoding where every
maximal invalid subpart becomes one U+FFFD instead of raising. -/
def utf8DecodeReplace : List Nat → List Char
  | [] => []
  | b :: rest =>
    if b < 0x80 then Char.ofNat b :: utf8DecodeReplace rest
    else if b < 0xC2 then replChar :: utf8DecodeReplace rest
    else if b < 0xE0 then
      match rest with
      | [] => [replChar]
      | b2 :: rest2 =>
        if isContByte b2 then
          Char.ofNat ((b - 0xC0) * 0x40 + (b2 - 0x80)) :: utf8DecodeReplace rest2
        else replChar :: utf8DecodeReplace (b2 :: rest2)
    else if b < 0xF0 then
      match rest with
      | [] => [replChar]
      | b2 :: rest2 =>
        if decide (cont3lo b ≤ b2 ∧ b2 ≤ cont3hi b) then
          match rest2 with
          | [] => [replChar]
          | b3 :: rest3 =>
            if isContByte b3 then
              Char.ofNat ((b - 0xE0) * 0x1000 + (b2 - 0x80) * 0x40 + (b3 - 0x80)) ::
                utf8DecodeReplace rest3
            else replChar :: utf8DecodeReplace (b3 :: rest3)
        else replChar :: utf8DecodeReplace (b2 :: rest2)
    else if b < 0xF5 then
      match rest with
      | [] => [replChar]
      | b2 :: rest2 =>
        if decide (cont4lo b ≤ b2 ∧ b2 ≤ cont4hi b) then
          match rest2 with
          | [] => [replChar]
          | b3 :: rest3 =>
            if isContByte b3 then
              match rest3 with
              | [] => [replChar]
              | b4 :: rest4 =>
                if isContByte b4 then
                  Char.ofNat
                      ((b - 0xF0) * 0x40000 + (b2 - 0x80) * 0x1000 +
                        (b3 - 0x80) * 0x40 + (b4 - 0x80)) ::
                    utf8DecodeReplace rest4
                else replChar :: utf8DecodeReplace (b4 :: rest4)
            else replChar :: utf8DecodeReplace (b3 :: rest3)
        else replChar :: utf8DecodeReplace (b2 :: rest2)
    else replChar :: utf8DecodeReplace rest

/-- The whitespace set of Python `str.rstrip()` (`str.isspace` characters). -/
def isPySpace (c : Char) : Bool :=
  let n := c.toNat
  decide ((0x9 ≤ n ∧ n ≤ 0xD) ∨ (0x1C ≤ n ∧ n ≤ 0x1F) ∨ n = 0x20 ∨ n = 0x85 ∨
    n = 0xA0 ∨ n = 0x1680 ∨ (0x2000 ≤ n ∧ n ≤ 0x200A) ∨ n = 0x2028 ∨ n = 0x2029 ∨
    n = 0x202F ∨ n = 0x205F ∨ n = 0x3000)

/-- Python `str.rstrip()`: drop trailing whitespace. -/
def pyRstrip (s : List Char) : List Char :=
  (s.reverse.dropWhile isPySpace).reverse

/-- Whether one iteration of the `while True` read loop continues or exits.
The loop body contains no `break` or `return`; only an exception escaping
the body would end the loop, and `readline` signals end-of-data by
returning empty bytes, not by raising. -/
inductive LoopStep : Type
  | cont
  | exit
deriving DecidableEq, Repr

/-- One iteration of `read_stream` inside `stream_process_to_websockets`,
applied to the bytes returned by `stream.readline()`: the event broadcast
by the iteration (if any) and whether the loop continues.  An empty read
(end-of-data) sleeps 0.1 s and continues. -/
def read_stream_body (line : List Nat) (is_stderr : Bool) :
    Option Message × LoopStep :=
  if line = [] then (none, LoopStep.cont)
  else
    let text := pyRstrip (utf8DecodeReplace line)
    (if text = [] then none else some (Message.output text is_stderr),
      LoopStep.cont)

/-- Whether the read loop has exited within `n` iterations when the
successive `readline` results are given by `reads`. -/
def read_stream_exits_within (reads : Nat → List Nat) (is_stderr : Bool) :
    Nat → Bool
  | 0 => false
  | n + 1 =>
    match (read_stream_body (reads 0) is_stderr).2 with
    | LoopStep.exit => true
    | LoopStep.cont =>
      read_stream_exits_within (fun i => reads (i + 1)) is_stderr n

/-- No record stored in `servers` carries the `STOPPED` status: `stop_server`
deletes the record before marking the (now unreferenced) object stopped, so
the state machine never stores a stopped record. -/
def NoStoppedRecord (servers : List (String × DevServerInfo)) : Prop :=
  ∀ q info, lookupKey q servers = some info → info.status ≠ ServerStatus.stopped

/-- Availability probe that reports every port free. -/
def availAll : Nat → Bool := fun _ => true

/-- Availability probe that reports every port busy. -/
def availNone : Nat → Bool := fun _ => false

/-- A manager with the default base port and no state. -/
def emptyManager : DevServerManager := ⟨3001, [], []⟩

/-- A running record for owner `p` on port 3001 with pid 42. -/
def infoRun : DevServerInfo :=
  ⟨"p", 3001, ServerStatus.running, true, some 42, 0, none⟩

/-- A manager in which owner `p` runs on port 3001. -/
def mRun : DevServerManager := ⟨3001, [("p", infoRun)], [(3001, "p")]⟩

/-- A record for owner `p` still in `STARTING`. -/
def infoStart : DevServerInfo :=
  ⟨"p", 3001, ServerStatus.starting, true, some 42, 0, none⟩

/-- A leftover `ERROR` record for owner `p` (spawn failures leave no process
handle). -/
def infoErr : DevServerInfo :=
  ⟨"p", 3001, ServerStatus.error, false, none, 0, some "boom"⟩

/-- A manager with a leftover `ERROR` record for owner `p`. -/
def mErr : DevServerManager := ⟨3001, [("p", infoErr)], [(3001, "p")]⟩

/-- Ten distinct buffered output events. -/
def bufTen : List Message :=
  (List.range 10).map (fun i => Message.output [Char.ofNat (0x30 + i)] false)

/-- A replay buffer filled to capacity. -/
def bufFull : List Message := List.replicate 200 (Message.output ['x'] false)

/-- Websocket state whose buffer for owner `p` is at capacity. -/
def stFull : WsState := ⟨[("p", [1, 2, 3])], [("p", bufFull)]⟩

/-- Websocket state with three subscribers for owner `p`. -/
def stSubs : WsState := ⟨[("p", [1, 2, 3])], []⟩

/-- Delivery fails exactly for subscriber 2. -/
def failsTwo : Nat → Bool := fun w => decide (w = 2)

/-! ## Helper lemmas -/

theorem lookupKey_eraseKey {κ α : Type} [DecidableEq κ] (k q : κ) (l : List (κ × α)) :
    lookupKey q (eraseKey k l) = if k = q then none else lookupKey q l := by
  induction l with
  | nil => simp [eraseKey, lookupKey]
  | cons hd tl ih =>
    obtain ⟨k1, v⟩ := hd
    by_cases h1 : k1 = k
    · subst h1
      by_cases h2 : k1 = q
      · subst h2; simp [eraseKey, lookupKey, ih]
      · simp [eraseKey, lookupKey, h2, ih]
    · by_cases h2 : k1 = q
      · subst h2
        have : ¬ k = k1 := fun h => h1 h.symm
        simp [eraseKey, lookupKey, h1, this]
      · simp [eraseKey, lookupKey, h1, h2, ih]

theorem lookupKey_insertKey {κ α : Type} [DecidableEq κ] (k q : κ) (v : α)
    (l : List (κ × α)) :
    lookupKey q (insertKey k v l) = if k = q then some v else lookupKey q l := by
  simp only [insertKey, lookupKey, lookupKey_eraseKey]
  split <;> rfl

theorem lookupKey_insertKey_self {κ α : Type} [DecidableEq κ] (k : κ) (v : α)
    (l : List (κ × α)) : lookupKey k (insertKey k v l) = some v := by
  simp [lookupKey_insertKey]

theorem lookupKey_eraseKey_self {κ α : Type} [DecidableEq κ] (k : κ)
    (l : List (κ × α)) : lookupKey k (eraseKey k l) = none := by
  simp [lookupKey_eraseKey]

theorem find_port_go_some (alloc : List (Nat × String)) (avail : Nat → Bool)
    (p n q : Nat) (h : find_port_go alloc avail p n = some q) :
    p ≤ q ∧ q < p + n ∧ lookupKey q alloc = none ∧ avail q = true := by
  induction n generalizing p with
  | zero => simp [find_port_go] at h
  | succ n ih =>
    rw [find_port_go] at h
    split at h
    · rename_i hc
      obtain ⟨rfl⟩ := Option.some_inj.mp h
      exact ⟨Nat.le_refl _, Nat.lt_add_of_pos_right (Nat.succ_pos n), hc.1, hc.2⟩
    · obtain ⟨h1, h2, h3, h4⟩ := ih (p + 1) h
      exact ⟨Nat.le_trans (Nat.le_succ p) h1, by omega, h3, h4⟩

theorem find_port_go_none (alloc : List (Nat × String)) (avail : Nat → Bool)
    (p n : Nat) :
    find_port_go alloc avail p n = none ↔
      ∀ i, i < n → ¬(lookupKey (p + i) alloc = none ∧ avail (p + i) = true) := by
  induction n generalizing p with
  | zero => simp [find_port_go]
  | succ n ih =>
    rw [find_port_go]
    split
    · rename_i hc
      simp only [iff_false_intro (Option.some_ne_none p), false_iff]
      intro hall
      exact hall 0 (Nat.succ_pos n) (by simpa using hc)
    · rename_i hc
      rw [ih (p + 1)]
      constructor
      · intro hall i hi
        match i, hi with
        | 0, _ => simpa using hc
        | j + 1, hj =>
          have := hall j (by omega)
          simpa [Nat.add_assoc, Nat.add_comm 1 j] using this
      · intro hall i hi
        have := hall (i + 1) (by omega)
        simpa [Nat.add_assoc, Nat.add_comm 1 i] using this

theorem stop_wait_loop_eq_false (m : DevServerManager) (pid : String)
    (h : stop_wait_poll m pid = false) (n : Nat) :
    stop_wait_loop m pid n = false := by
  induction n with
  | zero => rfl
  | succ n ih => simp [stop_wait_loop, h, ih]

/-- Cleanup lemma for `stop_server`: on every path other than the
`STOPPED` no-op and the unexpected-exception path, the record is removed,
the lease is released and the call reports success. -/
theorem stop_cleanup_aux (m : DevServerManager) (pid : String) (term : TermOutcome)
    (info : DevServerInfo) (h : lookupKey pid m.servers = some info)
    (hs : info.status ≠ ServerStatus.stopped)
    (hb : info.status = ServerStatus.stopping ∨ info.hasProcess = false ∨
      ∀ msg, term ≠ TermOutcome.raisedOther msg) :
    (stop_server m pid term).1 = true ∧
    lookupKey pid (stop_server m pid term).2.servers = none ∧
    lookupKey info.port (stop_server m pid term).2.port_allocations = none := by
  by_cases hstop : info.status = ServerStatus.stopping
  · have hpoll : stop_wait_poll m pid = false := by
      simp [stop_wait_poll, h, hstop]
    have hloop := stop_wait_loop_eq_false m pid hpoll stopping_poll_count
    simp [stop_server, h, hs, hstop, hloop, lookupKey_eraseKey_self]
  · cases hp : info.hasProcess with
    | false =>
      simp [stop_server, h, hs, hstop, hp, lookupKey_eraseKey_self]
    | true =>
      cases term with
      | exited => simp [stop_server, h, hs, hstop, hp, lookupKey_eraseKey_self]
      | killedAfterTimeout =>
        simp [stop_server, h, hs, hstop, hp, lookupKey_eraseKey_self]
      | processGone => simp [stop_server, h, hs, hstop, hp, lookupKey_eraseKey_self]
      | raisedOther msg =>
        rcases hb with hb | hb | hb
        · exact absurd hb hstop
        · rw [hp] at hb; cases hb
        · exact absurd rfl (hb msg)

theorem noStoppedRecord_insertKey (s : List (String × DevServerInfo)) (q : String)
    (info : DevServerInfo) (h : NoStoppedRecord s)
    (hi : info.status ≠ ServerStatus.stopped) :
    NoStoppedRecord (insertKey q info s) := by
  intro q2 i2 h2
  rw [lookupKey_insertKey] at h2
  split at h2
  · cases h2; exact hi
  · exact h q2 i2 h2

theorem noStoppedRecord_eraseKey (s : List (String × DevServerInfo)) (q : String)
    (h : NoStoppedRecord s) : NoStoppedRecord (eraseKey q s) := by
  intro q2 i2 h2
  rw [lookupKey_eraseKey] at h2
  split at h2
  · cases h2
  · exact h q2 i2 h2

theorem noStoppedRecord_stop_server (m : DevServerManager) (pid : String)
    (term : TermOutcome) (h : NoStoppedRecord m.servers) :
    NoStoppedRecord (stop_server m pid term).2.servers := by
  cases hl : lookupKey pid m.servers with
  | none => simpa [stop_server, hl] using h
  | some info =>
    by_cases h1 : info.status = ServerStatus.stopped
    · simpa [stop_server, hl, h1] using h
    · by_cases h2 : info.status = ServerStatus.stopping
      · by_cases h3 : stop_wait_loop m pid stopping_poll_count = true
        · simpa [stop_server, hl, h1, h2, h3] using h
        · simpa [stop_server, hl, h1, h2, h3] using
            noStoppedRecord_eraseKey m.servers pid h
      · have hins : NoStoppedRecord
            (insertKey pid { info with status := ServerStatus.stopping } m.servers) :=
          noStoppedRecord_insertKey m.servers pid _ h (by simp)
        cases hp : info.hasProcess with
        | false =>
          simpa [stop_server, hl, h1, h2, hp] using noStoppedRecord_eraseKey _ pid hins
        | true =>
          cases term with
          | exited =>
            simpa [stop_server, hl, h1, h2, hp] using noStoppedRecord_eraseKey _ pid hins
          | killedAfterTimeout =>
            simpa [stop_server, hl, h1, h2, hp] using noStoppedRecord_eraseKey _ pid hins
          | processGone =>
            simpa [stop_server, hl, h1, h2, hp] using noStoppedRecord_eraseKey _ pid hins
          | raisedOther msg =>
            simpa [stop_server, hl, h1, h2, hp] using
              noStoppedRecord_insertKey _ pid _ hins (by simp)

theorem noStoppedRecord_start_spawn (m : DevServerManager) (spawn : SpawnOutcome)
    (now : Nat) (pid : String) (port : Nat) (h : NoStoppedRecord m.servers) :
    NoStoppedRecord (start_spawn m spawn now pid port).state.servers := by
  cases spawn with
  | ok newPid =>
    simpa [start_spawn] using
      noStoppedRecord_insertKey _ pid _
        (noStoppedRecord_insertKey m.servers pid (starting_record pid port now) h
          (by simp [starting_record]))
        (by simp [starting_record])
  | fail msg =>
    simpa [start_spawn, release_port] using
      noStoppedRecord_insertKey _ pid _
        (noStoppedRecord_insertKey m.servers pid (starting_record pid port now) h
          (by simp [starting_record]))
        (by simp [starting_record])

theorem allocate_port_servers (m : DevServerManager) (avail : Nat → Bool)
    (pid : String) : (allocate_port m avail pid).2.servers = m.servers := by
  cases hl : lookupKey pid m.servers with
  | some info =>
    cases hl2 : lookupKey info.port m.port_allocations with
    | none => simp [allocate_port, hl, hl2]
    | some o => simp [allocate_port, hl, hl2]
  | none =>
    cases hf : find_available_port m avail with
    | none => simp [allocate_port, hl, hf]
    | some p =>
      by_cases hz : p ≠ 0
      · simp [allocate_port, hl, hf, hz]
      · simp [allocate_port, hl, hf, hz]

theorem noStoppedRecord_start_fresh (m : DevServerManager) (avail : Nat → Bool)
    (spawn : SpawnOutcome) (now : Nat) (pid : String) (portArg : Option Nat)
    (h : NoStoppedRecord m.servers) :
    NoStoppedRecord (start_fresh m avail spawn now pid portArg).state.servers := by
  cases portArg with
  | none =>
    have hserv : NoStoppedRecord (allocate_port m avail pid).2.servers := by
      rw [allocate_port_servers]; exact h
    cases hal : allocate_port m avail pid with
    | mk portOpt m1 =>
      rw [hal] at hserv
      cases portOpt with
      | none => simpa [start_fresh, hal] using hserv
      | some p =>
        by_cases hz : p = 0
        · simpa [start_fresh, hal, hz] using hserv
        · simpa [start_fresh, hal, hz] using
            noStoppedRecord_start_spawn m1 spawn now pid p hserv
  | some p =>
    cases hl : lookupKey p m.port_allocations with
    | none =>
      simpa [start_fresh, hl] using
        noStoppedRecord_start_spawn
          { m with port_allocations := insertKey p pid m.port_allocations }
          spawn now pid p h
    | some owner =>
      by_cases ho : owner = pid
      · simpa [start_fresh, hl, ho] using noStoppedRecord_start_spawn m spawn now pid p h
      · simpa [start_fresh, hl, ho] using h

theorem noStoppedRecord_start_server (m : DevServerManager) (avail : Nat → Bool)
    (term : TermOutcome) (spawn : SpawnOutcome) (now : Nat) (pid : String)
    (portArg : Option Nat) (h : NoStoppedRecord m.servers) :
    NoStoppedRecord (start_server m avail term spawn now pid portArg).state.servers := by
  cases hl : lookupKey pid m.servers with
  | none =>
    simpa [start_server, hl] using noStoppedRecord_start_fresh m avail spawn now pid portArg h
  | some info =>
    by_cases h1 : info.status = ServerStatus.running
    · simpa [start_server, hl, h1] using h
    · by_cases h2 : info.status = ServerStatus.starting
      · simpa [start_server, hl, h1, h2] using h
      · simpa [start_server, hl, h1, h2] using
          noStoppedRecord_start_fresh _ avail spawn now pid portArg
            (noStoppedRecord_stop_server m pid term h)

theorem broadcast_loop_spec (sendFails : Nat → Bool) (subs : List Nat) :
    broadcast_loop sendFails subs =
      (subs.filter (fun w => ! sendFails w), subs.filter sendFails) := by
  induction subs with
  | nil => rfl
  | cons ws rest ih =>
    simp only [broadcast_loop, ih]
    cases hf : sendFails ws <;> simp [List.filter, hf]

theorem broadcast_log_buffers (st : WsState) (pid : String) (msg : Message)
    (sendFails : Nat → Bool) :
    (broadcast_to_project st pid msg sendFails).2.log_buffers =
      broadcast_buffers st pid msg := by
  cases hl : lookupKey pid st.active_websockets with
  | none => simp [broadcast_to_project, hl]
  | some subs =>
    by_cases h1 : subs = []
    · simp only [broadcast_to_project, hl]
      rw [if_pos h1]
    · by_cases h2 : (broadcast_loop sendFails subs).2 = []
      · simp only [broadcast_to_project, hl]
        rw [if_neg h1, if_pos h2]
      · simp only [broadcast_to_project, hl]
        rw [if_neg h1, if_neg h2]
        split <;> rfl

theorem broadcast_active (st : WsState) (pid : String) (msg : Message)
    (sendFails : Nat → Bool) (subs : List Nat)
    (h : lookupKey pid st.active_websockets = some subs) :
    (broadcast_to_project st pid msg sendFails).2.active_websockets =
      if subs = [] then st.active_websockets
      else if (broadcast_loop sendFails subs).2 = [] then st.active_websockets
      else if subs.filter
          (fun w => decide (¬ w ∈ (broadcast_loop sendFails subs).2)) = [] then
        eraseKey pid st.active_websockets
      else
        insertKey pid
          (subs.filter (fun w => decide (¬ w ∈ (broadcast_loop sendFails subs).2)))
          st.active_websockets := by
  simp only [broadcast_to_project, h]
  split
  · rfl
  · split
    · rfl
    · split
      · rfl
      · rfl

theorem pyRstrip_spec (s : List Char) :
    s = pyRstrip s ++ (s.reverse.takeWhile isPySpace).reverse ∧
    ∀ c ∈ (s.reverse.takeWhile isPySpace).reverse, isPySpace c = true := by
  constructor
  · conv_lhs => rw [← List.reverse_reverse s,
      ← List.takeWhile_append_dropWhile isPySpace s.reverse]
    rw [List.reverse_append]
    rfl
  · intro c hc
    rw [List.mem_reverse] at hc
    exact List.mem_takeWhile_imp hc

theorem utf8DecodeReplace_ne_nil (b : Nat) (rest : List Nat) :
    utf8DecodeReplace (b :: rest) ≠ [] := by
  rw [utf8DecodeReplace.eq_def]
  repeat' split
  all_goals simp_all

theorem start_spawn_spawn_record (m : DevServerManager) (spawn : SpawnOutcome)
    (now : Nat) (pid : String) (port : Nat) (r : DevServerInfo)
    (h : (start_spawn m spawn now pid port).spawn_record = some r) :
    r.status = ServerStatus.starting ∧ r.pid = none ∧ r.hasProcess = false := by
  cases spawn with
  | ok newPid =>
    simp only [start_spawn] at h
    cases h
    exact ⟨rfl, rfl, rfl⟩
  | fail msg =>
    simp only [start_spawn] at h
    cases h
    exact ⟨rfl, rfl, rfl⟩

theorem start_fresh_spawn_record (m : DevServerManager) (avail : Nat → Bool)
    (spawn : SpawnOutcome) (now : Nat) (pid : String) (portArg : Option Nat)
    (r : DevServerInfo)
    (h : (start_fresh m avail spawn now pid portArg).spawn_record = some r) :
    r.status = ServerStatus.starting ∧ r.pid = none ∧ r.hasProcess = false := by
  cases portArg with
  | none =>
    cases hal : allocate_port m avail pid with
    | mk portOpt m1 =>
      cases portOpt with
      | none =>
        simp only [start_fresh, hal] at h
        exact Option.noConfusion h
      | some p =>
        by_cases hz : p = 0
        · simp only [start_fresh, hal, if_pos hz] at h
          exact Option.noConfusion h
        · simp only [start_fresh, hal, if_neg hz] at h
          exact start_spawn_spawn_record m1 spawn now pid p r h
  | some p =>
    cases hl : lookupKey p m.port_allocations with
    | none =>
      simp only [start_fresh, hl] at h
      exact start_spawn_spawn_record _ spawn now pid p r h
    | some owner =>
      by_cases ho : owner = pid
      · simp only [start_fresh, hl, if_pos ho] at h
        exact start_spawn_spawn_record m spawn now pid p r h
      · simp only [start_fresh, hl, if_neg ho] at h
        exact Option.noConfusion h

/-! ## Claims -/

/-- C1, counterexample: in a manager where owner `p` runs on port 3001, a
`stop` during which the terminate/kill interaction raises an exception other
than `ProcessLookupError` returns failure, keeps the `ServerRecord` (marked
`ERROR`), and leaves the port lease in place — cleanup is not unconditional
on failure paths. -/
theorem stop_unexpected_exception_keeps_lease :
    (stop_server mRun "p" (TermOutcome.raisedOther "boom")).1 = false ∧
    lookupKey 3001
        (stop_server mRun "p" (TermOutcome.raisedOther "boom")).2.port_allocations =
      some "p" ∧
    lookupKey "p" (stop_server mRun "p" (TermOutcome.raisedOther "boom")).2.servers =
      some
        { project_id := "p", port := 3001, status := ServerStatus.error,
          hasProcess := true, pid := some 42, started_at := 0,
          error_message := some "boom" } := by
  refine ⟨rfl, rfl, rfl⟩

/-- C1 (amended): for every owner with an active record, `stop` releases the
port lease and removes the record on every path on which the terminate/kill
system calls complete, time out, or raise `ProcessLookupError` — and also
when no process handle exists or the record was already `STOPPING`; but when
those calls raise any other exception, `stop` returns failure, keeps the
record with status `ERROR`, and leaves the port allocations unchanged. -/
theorem stop_releases_port_and_removes_record (m : DevServerManager) (pid : String)
    (term : TermOutcome) (info : DevServerInfo)
    (h : lookupKey pid m.servers = some info)
    (hs : info.status ≠ ServerStatus.stopped) :
    ((info.status = ServerStatus.stopping ∨ info.hasProcess = false ∨
        ∀ msg, term ≠ TermOutcome.raisedOther msg) →
      (stop_server m pid term).1 = true ∧
      lookupKey pid (stop_server m pid term).2.servers = none ∧
      lookupKey info.port (stop_server m pid term).2.port_allocations = none) ∧
    (∀ msg, term = TermOutcome.raisedOther msg → info.hasProcess = true →
      info.status ≠ ServerStatus.stopping →
      (stop_server m pid term).1 = false ∧
      lookupKey pid (stop_server m pid term).2.servers =
        some { info with status := ServerStatus.error, error_message := some msg } ∧
      (stop_server m pid term).2.port_allocations = m.port_allocations) := by
  constructor
  · intro hb
    exact stop_cleanup_aux m pid term info h hs hb
  · intro msg hterm hp hnstop
    subst hterm
    refine ⟨?_, ?_, ?_⟩
    · simp [stop_server, h, hs, hnstop, hp]
    · simp [stop_server, h, hs, hnstop, hp, lookupKey_insertKey_self]
    · simp [stop_server, h, hs, hnstop, hp]

/-- C1 witness: on a concrete running record with a clean terminate, `stop`
succeeds, removes the record and releases the lease. -/
theorem stop_releases_port_and_removes_record_witness :
    (stop_server mRun "p" TermOutcome.exited).1 = true ∧
    lookupKey "p" (stop_server mRun "p" TermOutcome.exited).2.servers = none ∧
    lookupKey 3001 (stop_server mRun "p" TermOutcome.exited).2.port_allocations =
      none := by
  exact (stop_releases_port_and_removes_record mRun "p" TermOutcome.exited infoRun rfl
    (by decide)).1
    (Or.inr (Or.inr (fun msg hmsg => TermOutcome.noConfusion hmsg)))

/-- C2, counterexample: on an empty manager (every port probe succeeding),
`allocate("a")` returns port 3001, and a second `allocate("a")` without an
intervening release returns port 3002 — the two calls do not return the
identical port, because idempotence is keyed on the `ServerRecord`, which a
bare `allocate` does not create. -/
theorem allocate_twice_without_record_differs :
    (allocate_port emptyManager availAll "a").1 = some 3001 ∧
    (allocate_port (allocate_port emptyManager availAll "a").2 availAll "a").1 =
      some 3002 := by
  refine ⟨rfl, rfl⟩

/-- C2 (amended): when the owner already holds a `ServerRecord`, `allocate`
returns the port of that record unchanged both times, leaves the server table
unchanged and allocates no other port; without a record, a repeated
`allocate` can return a fresh port instead. -/
theorem allocate_idempotent_with_record (m : DevServerManager) (avail : Nat → Bool)
    (pid : String) (info : DevServerInfo)
    (h : lookupKey pid m.servers = some info) :
    (allocate_port m avail pid).1 = some info.port ∧
    (allocate_port m avail pid).2.servers = m.servers ∧
    (allocate_port (allocate_port m avail pid).2 avail pid).1 = some info.port ∧
    (∀ q, q ≠ info.port →
      lookupKey q (allocate_port m avail pid).2.port_allocations =
        lookupKey q m.port_allocations) := by
  cases hl2 : lookupKey info.port m.port_allocations with
  | none =>
    refine ⟨?_, ?_, ?_, ?_⟩
    · simp [allocate_port, h, hl2]
    · simp [allocate_port, h, hl2]
    · have hstate : (allocate_port m avail pid).2 =
          { m with port_allocations := insertKey info.port pid m.port_allocations } := by
        simp [allocate_port, h, hl2]
      rw [hstate]
      simp [allocate_port, h, lookupKey_insertKey_self]
    · intro q hq
      simp only [allocate_port, h, hl2]
      rw [lookupKey_insertKey]
      rw [if_neg (fun he => hq he.symm)]
  | some o =>
    refine ⟨?_, ?_, ?_, ?_⟩
    · simp [allocate_port, h, hl2]
    · simp [allocate_port, h, hl2]
    · have hstate : (allocate_port m avail pid).2 = m := by
        simp [allocate_port, h, hl2]
      rw [hstate]
      simp [allocate_port, h, hl2]
    · intro q hq
      simp [allocate_port, h, hl2]

/-- C2 witness: with owner `p` holding a record on port 3001, two successive
`allocate` calls both return 3001. -/
theorem allocate_idempotent_with_record_witness :
    (allocate_port mRun availAll "p").1 = some 3001 ∧
    (allocate_port (allocate_port mRun availAll "p").2 availAll "p").1 =
      some 3001 := by
  have h := allocate_idempotent_with_record mRun availAll "p" infoRun rfl
  exact ⟨h.1, h.2.2.1⟩

/-- C4: the read loop of `stream_process_to_websockets` never exits, for any
sequence of `readline` results and any number of iterations; in particular an
empty read — the end-of-data signal produced once the child process exits —
emits nothing, sleeps and continues the loop instead of terminating it. -/
theorem read_loop_never_exits (reads : Nat → List Nat) (is_stderr : Bool) (n : Nat) :
    read_stream_exits_within reads is_stderr n = false ∧
    read_stream_body [] is_stderr = (none, LoopStep.cont) := by
  constructor
  · induction n generalizing reads with
    | zero => rfl
    | succ n ih =>
      have hcont : (read_stream_body (reads 0) is_stderr).2 = LoopStep.cont := by
        unfold read_stream_body
        split
        · rfl
        · rfl
      rw [read_stream_exits_within, hcont]
      exact ih (fun i => reads (i + 1))
  · rfl

/-- C5: a `start` on an owner whose record is `RUNNING` returns the existing
record unchanged — same port and pid — changes no state and attempts no
spawn, and a second identical `start` returns the same again. -/
theorem start_idempotent_when_running (m : DevServerManager) (avail : Nat → Bool)
    (term : TermOutcome) (spawn : SpawnOutcome) (now : Nat) (pid : String)
    (portArg : Option Nat) (info : DevServerInfo)
    (h : lookupKey pid m.servers = some info)
    (hr : info.status = ServerStatus.running) :
    start_server m avail term spawn now pid portArg =
      { result := Except.ok info, state := m, spawn_record := none } ∧
    start_server (start_server m avail term spawn now pid portArg).state avail term
        spawn now pid portArg =
      { result := Except.ok info, state := m, spawn_record := none } := by
  have h1 : start_server m avail term spawn now pid portArg =
      { result := Except.ok info, state := m, spawn_record := none } := by
    simp [start_server, h, hr]
  refine ⟨h1, ?_⟩
  rw [h1]
  exact h1

/-- C5 witness: starting the already-running owner `p` twice returns the
identical record both times with no spawn attempted. -/
theorem start_idempotent_when_running_witness :
    start_server mRun availAll TermOutcome.exited (SpawnOutcome.ok 5) 0 "p" none =
      { result := Except.ok infoRun, state := mRun, spawn_record := none } := by
  exact (start_idempotent_when_running mRun availAll TermOutcome.exited
    (SpawnOutcome.ok 5) 0 "p" none infoRun rfl rfl).1

/-- C3, counterexample: a subscriber joining while owner `p` is `STARTING`
with ten buffered Output events receives only the status message — none of
the ten buffered events is replayed, because the handler replays the buffer
only when the current status is `RUNNING`, not regardless of state. -/
theorem subscribe_no_replay_when_not_running :
    bufTen.length = 10 ∧
    subscribe_messages (some infoStart) (some bufTen) (fun _ => true) =
      [Message.status ServerStatus.starting (some 3001) (some 42)] := by
  refine ⟨rfl, rfl⟩

/-- C3 (amended): `subscribe` first delivers the current status of the owner;
then, only when the current status is `RUNNING`, it replays the full buffer
contents in original order (all of them when no send fails) before any later
live event; in every other state no buffered event is replayed. -/
theorem subscribe_replays_buffer_when_running (info : DevServerInfo)
    (buf : List Message) (sendOk : Message → Bool) :
    (info.status = ServerStatus.running → (∀ x ∈ buf, sendOk x = true) →
      subscribe_messages (some info) (some buf) sendOk =
        Message.status info.status (some info.port) info.pid :: buf) ∧
    (info.status ≠ ServerStatus.running →
      subscribe_messages (some info) (some buf) sendOk =
        [Message.status info.status (some info.port) info.pid]) := by
  constructor
  · intro hr hok
    simp [subscribe_messages, hr, List.filter_eq_self.mpr hok]
  · intro hr
    simp [subscribe_messages, hr]

/-- C3 witness: joining while owner `p` is `RUNNING` with ten buffered
events replays the status followed by exactly those ten in order. -/
theorem subscribe_replays_buffer_when_running_witness :
    subscribe_messages (some infoRun) (some bufTen) (fun _ => true) =
      Message.status ServerStatus.running (some 3001) (some 42) :: bufTen := by
  exact (subscribe_replays_buffer_when_running infoRun bufTen (fun _ => true)).1 rfl
    (fun x hx => rfl)

/-- C6: the port search inspects exactly the 100 candidates
`base_port ... base_port + 99`: a returned port lies in that range, is not
leased and passed the availability probe; the search reports no port exactly
when every candidate in the range is leased or probes busy; and in that case
a `start` with no explicit port aborts with the `RuntimeError` message and
leaves the state unchanged — in particular no `ServerRecord` is created. -/
theorem port_search_bounded_and_abort (m : DevServerManager) (avail : Nat → Bool)
    (term : TermOutcome) (spawn : SpawnOutcome) (now : Nat) (pid : String) :
    (∀ p, find_available_port m avail = some p →
      m.base_port ≤ p ∧ p < m.base_port + 100 ∧
      lookupKey p m.port_allocations = none ∧ avail p = true) ∧
    (find_available_port m avail = none ↔
      ∀ i, i < 100 →
        ¬(lookupKey (m.base_port + i) m.port_allocations = none ∧
          avail (m.base_port + i) = true)) ∧
    (lookupKey pid m.servers = none → find_available_port m avail = none →
      start_server m avail term spawn now pid none =
        { result := Except.error "No available ports for dev server",
          state := m, spawn_record := none }) := by
  refine ⟨?_, ?_, ?_⟩
  · intro p hp
    have := find_port_go_some m.port_allocations avail m.base_port max_attempts p hp
    simpa [max_attempts] using this
  · simpa [max_attempts] using
      find_port_go_none m.port_allocations avail m.base_port max_attempts
  · intro hno hfind
    simp [start_server, hno, start_fresh, allocate_port, hfind]

/-- C6 witness: with no leases but every availability probe failing, a
`start` on the empty manager aborts with the no-ports error and an unchanged
state. -/
theorem port_search_bounded_and_abort_witness :
    start_server emptyManager availNone TermOutcome.exited (SpawnOutcome.ok 5) 0
        "p" none =
      { result := Except.error "No available ports for dev server",
        state := emptyManager, spawn_record := none } := by
  exact (port_search_bounded_and_abort emptyManager availNone TermOutcome.exited
    (SpawnOutcome.ok 5) 0 "p").2.2 rfl (by decide)

/-- C7: after any `broadcast_to_project`, the buffer of the owner is the old
buffer with the message appended and clamped to the last 200 entries; the
result never exceeds 200 entries; appending to a buffer already holding 200
evicts exactly the oldest entry (FIFO); and messages that are not of type
`output` leave the buffers untouched. -/
theorem replay_buffer_bounded_fifo (st : WsState) (pid : String) (msg : Message)
    (sendFails : Nat → Bool) :
    (msg.isOutput = true →
      lookupKey pid (broadcast_to_project st pid msg sendFails).2.log_buffers =
        some (buffer_append ((lookupKey pid st.log_buffers).getD []) msg)) ∧
    (buffer_append ((lookupKey pid st.log_buffers).getD []) msg).length ≤
      MAX_BUFFER_SIZE ∧
    (((lookupKey pid st.log_buffers).getD []).length = MAX_BUFFER_SIZE →
      buffer_append ((lookupKey pid st.log_buffers).getD []) msg =
        ((lookupKey pid st.log_buffers).getD []).tail ++ [msg]) ∧
    (msg.isOutput = false →
      (broadcast_to_project st pid msg sendFails).2.log_buffers =
        st.log_buffers) := by
  refine ⟨?_, ?_, ?_, ?_⟩
  · intro hout
    rw [broadcast_log_buffers]
    simp [broadcast_buffers, hout, lookupKey_insertKey_self]
  · unfold buffer_append
    split
    · simp only [List.length_drop]
      omega
    · rename_i hnot
      omega
  · intro hlen
    unfold buffer_append
    have hgt : MAX_BUFFER_SIZE <
        (((lookupKey pid st.log_buffers).getD []) ++ [msg]).length := by
      simp [hlen, MAX_BUFFER_SIZE]
    rw [if_pos hgt]
    have hdrop : (((lookupKey pid st.log_buffers).getD []) ++ [msg]).length -
        MAX_BUFFER_SIZE = 1 := by
      simp [hlen, MAX_BUFFER_SIZE]
    rw [hdrop]
    rw [List.drop_append_of_le_length (by simp [hlen, MAX_BUFFER_SIZE])]
    rw [List.drop_one]
  · intro hout
    rw [broadcast_log_buffers]
    simp [broadcast_buffers, hout]

/-- C7 witness: appending one more output event to a buffer of exactly 200
drops the oldest entry and appends the new one. -/
theorem replay_buffer_bounded_fifo_witness :
    buffer_append bufFull (Message.output ['y'] true) =
      bufFull.tail ++ [Message.output ['y'] true] := by
  exact (replay_buffer_bounded_fifo stFull "p" (Message.output ['y'] true)
    (fun _ => false)).2.2.1 rfl

/-- C8: delivery is best-effort per subscriber: the message reaches exactly
the subscribers whose send does not fail (in registration order, so the loop
is never aborted by one failure); afterwards the subscriber set of the owner
consists of exactly the non-failing subscribers (the entry is pruned when
that set is empty); subscriber sets of other owners are untouched. -/
theorem broadcast_isolates_failed_subscriber (st : WsState) (pid : String)
    (msg : Message) (sendFails : Nat → Bool) (subs : List Nat)
    (h : lookupKey pid st.active_websockets = some subs) :
    (broadcast_to_project st pid msg sendFails).1 =
      subs.filter (fun w => ! sendFails w) ∧
    (∀ w ∈ subs, sendFails w = false →
      w ∈ (broadcast_to_project st pid msg sendFails).1) ∧
    (∀ remaining,
      lookupKey pid (broadcast_to_project st pid msg sendFails).2.active_websockets =
        some remaining →
      remaining = subs.filter (fun w => ! sendFails w)) ∧
    (lookupKey pid (broadcast_to_project st pid msg sendFails).2.active_websockets =
        none →
      subs.filter (fun w => ! sendFails w) = []) ∧
    (∀ q, q ≠ pid →
      lookupKey q (broadcast_to_project st pid msg sendFails).2.active_websockets =
        lookupKey q st.active_websockets) := by
  have hmem : ∀ w ∈ subs,
      (decide (¬ w ∈ (broadcast_loop sendFails subs).2)) = (! sendFails w) := by
    intro w hw
    rw [broadcast_loop_spec]
    cases hf : sendFails w with
    | true => simp [List.mem_filter, hw, hf]
    | false => simp [List.mem_filter, hw, hf]
  have hcongr : subs.filter (fun w => decide (¬ w ∈ (broadcast_loop sendFails subs).2)) =
      subs.filter (fun w => ! sendFails w) :=
    List.filter_congr hmem
  have hfst : (broadcast_to_project st pid msg sendFails).1 =
      subs.filter (fun w => ! sendFails w) := by
    simp only [broadcast_to_project, h]
    split
    · rename_i h1
      rw [h1]
      rfl
    · split
      · rw [broadcast_loop_spec]
      · split
        · rw [broadcast_loop_spec]
        · rw [broadcast_loop_spec]
  refine ⟨hfst, ?_, ?_, ?_, ?_⟩
  · intro w hw hf
    rw [hfst]
    exact List.mem_filter.mpr ⟨hw, by simp [hf]⟩
  · intro remaining hrem
    rw [broadcast_active st pid msg sendFails subs h] at hrem
    split at hrem
    · rename_i h1
      rw [h] at hrem
      cases hrem
      rw [h1]
      rfl
    · split at hrem
      · rename_i h2
        rw [h] at hrem
        cases hrem
        rw [broadcast_loop_spec] at h2
        simp only at h2
        rw [List.filter_eq_nil_iff] at h2
        symm
        rw [List.filter_eq_self]
        intro w hw
        simpa using h2 w hw
      · split at hrem
        · rw [lookupKey_eraseKey_self] at hrem
          cases hrem
        · rw [lookupKey_insertKey_self] at hrem
          cases hrem
          exact hcongr
  · intro hnone
    rw [broadcast_active st pid msg sendFails subs h] at hnone
    split at hnone
    · rw [h] at hnone
      cases hnone
    · split at hnone
      · rw [h] at hnone
        cases hnone
      · split at hnone
        · rename_i h3
          rw [← hcongr]
          exact h3
        · rw [lookupKey_insertKey_self] at hnone
          cases hnone
  · intro q hq
    rw [broadcast_active st pid msg sendFails subs h]
    split
    · rfl
    · split
      · rfl
      · split
        · rw [lookupKey_eraseKey]
          rw [if_neg (fun he => hq he.symm)]
        · rw [lookupKey_insertKey]
          rw [if_neg (fun he => hq he.symm)]

/-- C8 witness: broadcasting to owner `p` with three subscribers of which
only subscriber 2 fails delivers to subscribers 1 and 3. -/
theorem broadcast_isolates_failed_subscriber_witness :
    (broadcast_to_project stSubs "p" (Message.error "x") failsTwo).1 =
      [1, 2, 3].filter (fun w => ! failsTwo w) := by
  exact (broadcast_isolates_failed_subscriber stSubs "p" (Message.error "x")
    failsTwo [1, 2, 3] rfl).1

/-- C9: for every non-empty byte sequence returned by a read, the pump
decodes it totally (the permissive decoder never yields an empty result on a
non-empty read, replacing invalid bytes instead of failing), splits it into
a trimmed core and a trailing-whitespace suffix, suppresses the event when
the trimmed text is empty and otherwise emits exactly one `output` event
carrying the trimmed text and the stream-origin flag it was called with —
and the loop continues either way. -/
theorem pump_line_decode_trim_suppress_tag (line : List Nat) (is_stderr : Bool)
    (h : line ≠ []) :
    read_stream_body line is_stderr =
      (if pyRstrip (utf8DecodeReplace line) = [] then none
       else some (Message.output (pyRstrip (utf8DecodeReplace line)) is_stderr),
        LoopStep.cont) ∧
    utf8DecodeReplace line ≠ [] ∧
    utf8DecodeReplace line =
      pyRstrip (utf8DecodeReplace line) ++
        ((utf8DecodeReplace line).reverse.takeWhile isPySpace).reverse ∧
    (∀ c ∈ ((utf8DecodeReplace line).reverse.takeWhile isPySpace).reverse,
      isPySpace c = true) := by
  refine ⟨?_, ?_, (pyRstrip_spec (utf8DecodeReplace line)).1,
    (pyRstrip_spec (utf8DecodeReplace line)).2⟩
  · simp [read_stream_body, h]
  · cases line with
    | nil => exact absurd rfl h
    | cons b rest => exact utf8DecodeReplace_ne_nil b rest

/-- C9 witness: the read of the bytes FF 61 20 0A decodes with one replacement
character, drops the trailing whitespace and emits one stderr-tagged output
event. -/
theorem pump_line_decode_trim_suppress_tag_witness :
    read_stream_body [0xFF, 0x61, 0x20, 0x0A] true =
      (some (Message.output [replChar, 'a'] true), LoopStep.cont) := by
  have h := (pump_line_decode_trim_suppress_tag [0xFF, 0x61, 0x20, 0x0A] true
    (by decide)).1
  rw [h]
  rfl

/-- C10: a `start` on an owner whose record is neither `RUNNING` nor
`STARTING` behaves exactly as the complete `stop` operation followed by the
fresh-start path; for such records other than `STOPPED` (and with a benign
terminate outcome or no process handle) that `stop` removes the record and
releases the port; any record present at the spawn was freshly created in
`STARTING`; no reachable state stores a `STOPPED` record (both operations
preserve that invariant); and the `Stopping` wait is bounded by 10 polls of
500 ms — 5 seconds. -/
theorem start_after_terminal_state_stops_first (m : DevServerManager)
    (avail : Nat → Bool) (term : TermOutcome) (spawn : SpawnOutcome) (now : Nat)
    (pid : String) (portArg : Option Nat) (info : DevServerInfo)
    (h : lookupKey pid m.servers = some info)
    (h1 : info.status ≠ ServerStatus.running)
    (h2 : info.status ≠ ServerStatus.starting) :
    start_server m avail term spawn now pid portArg =
      start_fresh (stop_server m pid term).2 avail spawn now pid portArg ∧
    (info.status ≠ ServerStatus.stopped →
      (info.status = ServerStatus.stopping ∨ info.hasProcess = false ∨
        ∀ msg, term ≠ TermOutcome.raisedOther msg) →
      lookupKey pid (stop_server m pid term).2.servers = none ∧
      lookupKey info.port (stop_server m pid term).2.port_allocations = none) ∧
    (∀ r, (start_server m avail term spawn now pid portArg).spawn_record = some r →
      r.status = ServerStatus.starting ∧ r.pid = none ∧ r.hasProcess = false) ∧
    (NoStoppedRecord m.servers →
      NoStoppedRecord (stop_server m pid term).2.servers ∧
      NoStoppedRecord (start_server m avail term spawn now pid portArg).state.servers) ∧
    stopping_poll_count * stopping_poll_ms = 5000 := by
  have hdisp : start_server m avail term spawn now pid portArg =
      start_fresh (stop_server m pid term).2 avail spawn now pid portArg := by
    simp [start_server, h, h1, h2]
  refine ⟨hdisp, ?_, ?_, ?_, rfl⟩
  · intro hns hb
    have := stop_cleanup_aux m pid term info h hns hb
    exact ⟨this.2.1, this.2.2⟩
  · intro r hr
    rw [hdisp] at hr
    exact start_fresh_spawn_record _ avail spawn now pid portArg r hr
  · intro hni
    exact ⟨noStoppedRecord_stop_server m pid term hni,
      noStoppedRecord_start_server m avail term spawn now pid portArg hni⟩

/-- C10 witness: starting owner `p` over a leftover `ERROR` record first
performs the full stop (removing the record) and then the fresh-start path. -/
theorem start_after_terminal_state_stops_first_witness :
    start_server mErr availAll TermOutcome.exited (SpawnOutcome.ok 5) 0 "p" none =
      start_fresh (stop_server mErr "p" TermOutcome.exited).2 availAll
        (SpawnOutcome.ok 5) 0 "p" none ∧
    lookupKey "p" (stop_server mErr "p" TermOutcome.exited).2.servers = none := by
  have h := start_after_terminal_state_stops_first mErr availAll TermOutcome.exited
    (SpawnOutcome.ok 5) 0 "p" none infoErr rfl (by decide) (by decide)
  exact ⟨h.1, (h.2.1 (by decide) (Or.inr (Or.inl rfl))).1⟩

end Rush
